import Mathlib

/-!
Verification development for the img_tag_system new-image registration
pipeline.  Definitions are shallow embeddings of the Python sources:

* `execute_parallel`      — src/infrastructure/services/parallel_executor.py
* `filter_duplicates`     — src/domain/services/image_deduplication.py
* `filter_duplicates_repo`— backend/src/application/service/image_deduplication.py
* `classify`              — backend/src/domain/services/tagging_result_classifier.py
* `UnitOfWork` scope      — src/infrastructure/repositories/unit_of_work.py
* `extract_from_file`     — backend/src/application/service/image_metadata_extractor.py
* `imageHashValid`        — src/domain/value_objects/image_hash.py
* `handle`                — backend/src/application/usecases/register_new_image.py

Concurrency is modelled by an explicit completion order: the pool
finishes futures in an arbitrary order `order`, and each completion
writes only its own index of the result array, exactly as the Python
`as_completed` loop does.
-/

/-- A Python exception escaping a call: either a `ValueError` raised by the
validation code itself, or an exception re-raised from a task. -/
inductive PyErr (ε : Type) : Type
  | valueError : String → PyErr ε
  | raised : ε → PyErr ε
deriving DecidableEq

/-- Validation and defaulting block of `execute_parallel`
(parallel_executor.py lines 51-73): both lists absent is a `ValueError`;
an absent list defaults to `[]`; when both lists are truthy (non-empty)
their lengths must agree; otherwise the non-empty list fixes the task
count and the other is padded with empty tuples / empty dicts. -/
def prepare_lists {A K : Type} (args_list : Option (List A)) (kwargs_list : Option (List K))
    (emptyArgs : A) (emptyKwargs : K) : Except String (List A × List K) :=
  if args_list.isNone && kwargs_list.isNone then
    Except.error "args_list and kwargs_list must be provided"
  else
    let aL := args_list.getD []
    let kL := kwargs_list.getD []
    if !aL.isEmpty && !kL.isEmpty then
      if aL.length ≠ kL.length then
        Except.error "args_list and kwargs_list must have the same length"
      else Except.ok (aL, kL)
    else if !aL.isEmpty then Except.ok (aL, List.replicate aL.length emptyKwargs)
    else Except.ok (List.replicate kL.length emptyArgs, kL)

/-- One completed future writes its own slot of the result array:
`results[idx] = future.result()` or the captured exception.  An index
outside the array is left untouched (cannot happen for a pool order). -/
def writeResult {ε β : Type} (outcomes : List (Except ε β))
    (acc : List (Option (Except ε β))) (idx : Nat) : List (Option (Except ε β)) :=
  match outcomes[idx]? with
  | none => acc
  | some o => acc.set idx (some o)

/-- The `for future in as_completed(futures)` loop
(parallel_executor.py lines 89-98): futures complete in the order given
by `order`; each result is stored at its submission index; with
`raise_on_error = true` a task exception is re-raised out of the loop. -/
def runOrder {ε β : Type} (outcomes : List (Except ε β)) (raise_on_error : Bool) :
    List Nat → List (Option (Except ε β)) → Except ε (List (Option (Except ε β)))
  | [], acc => Except.ok acc
  | idx :: rest, acc =>
    match outcomes[idx]? with
    | none => runOrder outcomes raise_on_error rest acc
    | some (Except.ok v) =>
        runOrder outcomes raise_on_error rest (acc.set idx (some (Except.ok v)))
    | some (Except.error e) =>
        if raise_on_error then Except.error e
        else runOrder outcomes raise_on_error rest (acc.set idx (some (Except.error e)))

/-- `execute_parallel` (parallel_executor.py lines 21-101).  A task is a
pure call `func args kwargs` that returns or raises; `order` is the
completion order of the futures chosen by the pool; `n_workers` bounds
how many tasks are simultaneously active and therefore only constrains
which completion orders are possible, never the functional result.
Progress reporting and the thread/process strategy are cosmetic and not
modelled.  The result array starts as `[None] * num_tasks` and each
completion fills exactly its own index. -/
def execute_parallel {A K ε β : Type} (func : A → K → Except ε β)
    (args_list : Option (List A)) (kwargs_list : Option (List K))
    (n_workers : Nat) (raise_on_error : Bool) (order : List Nat)
    (emptyArgs : A) (emptyKwargs : K) : Except (PyErr ε) (List (Option (Except ε β))) :=
  match prepare_lists args_list kwargs_list emptyArgs emptyKwargs with
  | Except.error msg => Except.error (PyErr.valueError msg)
  | Except.ok (aL, kL) =>
    let outcomes := List.zipWith func aL kL
    let _ := n_workers
    match runOrder outcomes raise_on_error order (List.replicate aL.length none) with
    | Except.error e => Except.error (PyErr.raised e)
    | Except.ok results => Except.ok results

theorem prepare_lists_some_none {A K : Type} (aL : List A) (emptyArgs : A) (emptyKwargs : K) :
    prepare_lists (some aL) none emptyArgs emptyKwargs
      = Except.ok (aL, List.replicate aL.length emptyKwargs) := by
  cases aL with
  | nil => rfl
  | cons a rest => rfl

theorem zipWith_replicate_right {A K β : Type} (f : A → K → β) (aL : List A) (k : K) :
    List.zipWith f aL (List.replicate aL.length k) = aL.map (fun a => f a k) := by
  induction aL with
  | nil => rfl
  | cons a rest ih => simp [List.replicate_succ, List.zipWith, ih]

theorem runOrder_false_eq_foldl {ε β : Type} (outcomes : List (Except ε β)) (order : List Nat)
    (acc : List (Option (Except ε β))) :
    runOrder outcomes false order acc = Except.ok (order.foldl (writeResult outcomes) acc) := by
  induction order generalizing acc with
  | nil => rfl
  | cons idx rest ih =>
    cases h : outcomes[idx]? with
    | none => simp [runOrder, writeResult, h, ih]
    | some o =>
      cases o with
      | ok v => simp [runOrder, writeResult, h, ih]
      | error e => simp [runOrder, writeResult, h, ih]

theorem writeResult_length {ε β : Type} (outcomes : List (Except ε β))
    (acc : List (Option (Except ε β))) (idx : Nat) :
    (writeResult outcomes acc idx).length = acc.length := by
  unfold writeResult
  cases h : outcomes[idx]? <;> simp

theorem foldl_writeResult_getElem? {ε β : Type} (outcomes : List (Except ε β)) (order : List Nat)
    (acc : List (Option (Except ε β))) (hlen : acc.length = outcomes.length)
    (j : Nat) (hj : j < outcomes.length) :
    (order.foldl (writeResult outcomes) acc)[j]?
      = if j ∈ order then (outcomes[j]?).map some else acc[j]? := by
  induction order generalizing acc with
  | nil => simp
  | cons idx rest ih =>
    have hw : (writeResult outcomes acc idx).length = outcomes.length := by
      rw [writeResult_length, hlen]
    rw [List.foldl_cons, ih (writeResult outcomes acc idx) hw]
    by_cases hmem : j ∈ rest
    · simp [hmem, List.mem_cons]
    · by_cases heq : j = idx
      · subst heq
        have hja : j < acc.length := hlen ▸ hj
        rw [if_neg hmem, if_pos (List.mem_cons_self j rest)]
        unfold writeResult
        rw [List.getElem?_eq_getElem hj]
        simp [List.getElem?_set_self hja]
      · have hnotc : ¬ j ∈ idx :: rest := by
          simp [List.mem_cons, heq, hmem]
        rw [if_neg hmem, if_neg hnotc]
        unfold writeResult
        cases h : outcomes[idx]? with
        | none => rfl
        | some o => rw [List.getElem?_set_ne (fun hc => heq hc.symm)]

theorem foldl_writeResult_length {ε β : Type} (outcomes : List (Except ε β)) (order : List Nat)
    (acc : List (Option (Except ε β))) :
    (order.foldl (writeResult outcomes) acc).length = acc.length := by
  induction order generalizing acc with
  | nil => rfl
  | cons idx rest ih => rw [List.foldl_cons, ih, writeResult_length]

theorem runOrder_perm {ε β : Type} (outcomes : List (Except ε β)) (order : List Nat)
    (horder : order.Perm (List.range outcomes.length)) :
    runOrder outcomes false order (List.replicate outcomes.length none)
      = Except.ok (outcomes.map some) := by
  rw [runOrder_false_eq_foldl]
  congr 1
  apply List.ext_getElem?
  intro j
  by_cases hj : j < outcomes.length
  · rw [foldl_writeResult_getElem? outcomes order _ (by simp) j hj]
    have hmem : j ∈ order := horder.mem_iff.2 (List.mem_range.2 hj)
    rw [if_pos hmem, List.getElem?_map]
  · have h1 : (order.foldl (writeResult outcomes) (List.replicate outcomes.length none))[j]? = none := by
      apply List.getElem?_eq_none
      rw [foldl_writeResult_length, List.length_replicate]
      omega
    have h2 : (outcomes.map some)[j]? = none := by
      apply List.getElem?_eq_none
      rw [List.length_map]
      omega
    rw [h1, h2]

/-- C1: with `raise_on_error = False`, `execute_parallel` over N argument
tuples returns a list of length N whose position `i` holds the value or
the captured exception of `func` at tuple `i`, for every worker count
`W ≥ 1` and every completion order the pool can produce — result
placement is index-stable and independent of completion order. -/
theorem execute_parallel_preserves_input_order {A K ε β : Type}
    (func : A → K → Except ε β) (args_list : List A) (n_workers : Nat)
    (order : List Nat) (emptyArgs : A) (emptyKwargs : K)
    (_hW : 1 ≤ n_workers)
    (horder : order.Perm (List.range args_list.length)) :
    execute_parallel func (some args_list) none n_workers false order emptyArgs emptyKwargs
      = Except.ok (args_list.map (fun a => some (func a emptyKwargs))) := by
  unfold execute_parallel
  rw [prepare_lists_some_none]
  have hout : List.zipWith func args_list (List.replicate args_list.length emptyKwargs)
      = args_list.map (fun a => func a emptyKwargs) := zipWith_replicate_right func args_list emptyKwargs
  simp only [hout]
  have hlen : (args_list.map (fun a => func a emptyKwargs)).length = args_list.length :=
    List.length_map _ _
  have hperm2 : order.Perm (List.range (args_list.map (fun a => func a emptyKwargs)).length) := by
    rw [hlen]; exact horder
  have hrun := runOrder_perm (args_list.map (fun a => func a emptyKwargs)) order hperm2
  rw [hlen] at hrun
  rw [hrun]
  simp [List.map_map, Function.comp]

theorem execute_parallel_preserves_input_order_witness :
    execute_parallel (fun (a : Nat) (_ : Unit) => (Except.ok (a * 10) : Except Unit Nat))
        (some [1, 2, 3]) none 2 false [2, 0, 1] 0 ()
      = Except.ok ([1, 2, 3].map (fun a => some (Except.ok (a * 10)))) :=
  execute_parallel_preserves_input_order _ [1, 2, 3] 2 [2, 0, 1] 0 ()
    (by decide) (by decide)

/-- C7 counterexample: both argument lists supplied with unequal lengths
(`args_list = []` of length 0, `kwargs_list` of length 1), yet the call
returns normally — the empty supplied list is treated like an absent one
by the truthiness test `if args_list and kwargs_list`, so the length
check is skipped and one task is scheduled. -/
theorem execute_parallel_unequal_lengths_no_error :
    ([] : List Nat).length ≠ [()].length ∧
    execute_parallel (fun (a : Nat) (_ : Unit) => (Except.ok a : Except Unit Nat))
        (some []) (some [()]) 1 false [0] 7 ()
      = Except.ok [some (Except.ok 7)] :=
  ⟨by decide, rfl⟩

/-- C7 amended: the executor raises `ValueError` when neither list is
supplied, and raises `ValueError` before consulting the completion order
when both lists are supplied non-empty with unequal lengths; a supplied
but empty list is treated like an absent one, so no length error is
raised in that case.  The equations hold for every `func`, worker count
and completion order, so the failure happens before any task runs. -/
theorem execute_parallel_validation_errors {A K ε β : Type} (func : A → K → Except ε β)
    (n_workers : Nat) (raise_on_error : Bool) (order : List Nat)
    (emptyArgs : A) (emptyKwargs : K) :
    (execute_parallel func none none n_workers raise_on_error order emptyArgs emptyKwargs
        = Except.error (PyErr.valueError "args_list and kwargs_list must be provided")) ∧
    (∀ (aL : List A) (kL : List K), aL ≠ [] → kL ≠ [] → aL.length ≠ kL.length →
      execute_parallel func (some aL) (some kL) n_workers raise_on_error order emptyArgs emptyKwargs
        = Except.error (PyErr.valueError "args_list and kwargs_list must have the same length")) := by
  constructor
  · rfl
  · intro aL kL ha hk hne
    unfold execute_parallel prepare_lists
    have ha2 : aL.isEmpty = false := by
      cases aL with
      | nil => exact absurd rfl ha
      | cons x xs => rfl
    have hk2 : kL.isEmpty = false := by
      cases kL with
      | nil => exact absurd rfl hk
      | cons x xs => rfl
    simp [ha2, hk2, hne]

theorem execute_parallel_validation_errors_witness :
    execute_parallel (fun (a : Nat) (k : Nat) => (Except.ok (a + k) : Except Unit Nat))
        (some [1]) (some [2, 3]) 1 false [0] 0 0
      = Except.error (PyErr.valueError "args_list and kwargs_list must have the same length") :=
  (execute_parallel_validation_errors _ 1 false [0] 0 0).2 [1] [2, 3]
    (by decide) (by decide) (by decide)

/-- An image entry (backend/src/domain/entities/images.py).  The value
objects are flattened to their underlying values: `file_location` is the
validated path string, `hash` the 64-char SHA-256 hex string.
Timestamps are abstract store-assigned values. -/
structure ImageEntry where
  image_id : Option Nat
  file_location : String
  width : Nat
  height : Nat
  file_type : String
  hash : String
  file_size : Nat
  added_at : Option Nat := none
  updated_at : Option Nat := none
deriving DecidableEq

/-- `ImageDeduplicationService.filter_duplicates`
(src/domain/services/image_deduplication.py lines 9-22): keep the
candidates whose hash is not in the set of existing hashes.  The Python
set is modelled as a list with membership. -/
def filter_duplicates (image_entries : List ImageEntry) (existing_hash_set : List String) :
    List ImageEntry :=
  image_entries.filter (fun entry => !(existing_hash_set.contains entry.hash))

/-- `ImageDeduplicationService.filter_duplicates`, repository flavour
(backend/src/application/service/image_deduplication.py lines 9-24):
one batched `find_by_hashes` read, then set-membership filtering.  The
repository read is a pure function of the queried hashes; the service
performs no write. -/
def filter_duplicates_repo (image_entries : List ImageEntry)
    (find_by_hashes : List String → List ImageEntry) : List ImageEntry :=
  let existing_image_entries := find_by_hashes (image_entries.map (fun e => e.hash))
  let existing_hash_set := existing_image_entries.map (fun e => e.hash)
  image_entries.filter (fun entry => !(existing_hash_set.contains entry.hash))

/-- C5: `filter_duplicates` returns exactly the candidates whose hash is
absent from the existing set, as an order-preserving sublist, performs no
repository mutation (the repository flavour is the same pure filter
against the hashes read back), and on `[A,B,C]` with `existing =
{B.hash}` yields `[A,C]`. -/
theorem filter_duplicates_correct (image_entries : List ImageEntry)
    (existing_hash_set : List String)
    (find_by_hashes : List String → List ImageEntry)
    (A B C : ImageEntry)
    (hA : A.hash ≠ B.hash) (hC : C.hash ≠ B.hash) :
    ((∀ e : ImageEntry, e ∈ filter_duplicates image_entries existing_hash_set
        ↔ e ∈ image_entries ∧ ¬ e.hash ∈ existing_hash_set) ∧
      (filter_duplicates image_entries existing_hash_set).Sublist image_entries) ∧
    filter_duplicates_repo image_entries find_by_hashes
      = filter_duplicates image_entries
          ((find_by_hashes (image_entries.map (fun e => e.hash))).map (fun e => e.hash)) ∧
    filter_duplicates [A, B, C] [B.hash] = [A, C] := by
  refine ⟨⟨?_, ?_⟩, rfl, ?_⟩
  · intro e
    simp [filter_duplicates, List.mem_filter]
  · exact List.filter_sublist _
  · simp [filter_duplicates, List.filter, hA, hC]

theorem filter_duplicates_correct_witness :
    filter_duplicates
        [⟨none, "a.jpg", 1, 1, "jpg", "aa", 1, none, none⟩,
         ⟨none, "b.jpg", 1, 1, "jpg", "bb", 1, none, none⟩,
         ⟨none, "c.jpg", 1, 1, "jpg", "cc", 1, none, none⟩]
        ["bb"]
      = [⟨none, "a.jpg", 1, 1, "jpg", "aa", 1, none, none⟩,
         ⟨none, "c.jpg", 1, 1, "jpg", "cc", 1, none, none⟩] :=
  (filter_duplicates_correct [] [] (fun _ => [])
    ⟨none, "a.jpg", 1, 1, "jpg", "aa", 1, none, none⟩
    ⟨none, "b.jpg", 1, 1, "jpg", "bb", 1, none, none⟩
    ⟨none, "c.jpg", 1, 1, "jpg", "cc", 1, none, none⟩
    (by decide) (by decide)).2.2

/-- C10: the filter compares candidate hashes only against the existing
set, never against other candidates of the same batch: every entry whose
hash is absent from the existing set keeps its full multiplicity, so two
equal-hash candidates in one batch both survive. -/
theorem filter_duplicates_keeps_intra_batch_duplicates
    (image_entries : List ImageEntry) (existing_hash_set : List String)
    (e : ImageEntry) (h : existing_hash_set.contains e.hash = false) :
    (filter_duplicates image_entries existing_hash_set).count e = image_entries.count e := by
  unfold filter_duplicates
  exact List.count_filter (by simpa using h)

theorem filter_duplicates_keeps_intra_batch_duplicates_witness :
    (filter_duplicates
        [⟨none, "a.jpg", 1, 1, "jpg", "aa", 1, none, none⟩,
         ⟨none, "a.jpg", 1, 1, "jpg", "aa", 1, none, none⟩]
        ["bb"]).count ⟨none, "a.jpg", 1, 1, "jpg", "aa", 1, none, none⟩
      = ([⟨none, "a.jpg", 1, 1, "jpg", "aa", 1, none, none⟩,
          ⟨none, "a.jpg", 1, 1, "jpg", "aa", 1, none, none⟩] : List ImageEntry).count
          ⟨none, "a.jpg", 1, 1, "jpg", "aa", 1, none, none⟩ :=
  filter_duplicates_keeps_intra_batch_duplicates _ ["bb"]
    ⟨none, "a.jpg", 1, 1, "jpg", "aa", 1, none, none⟩ (by decide)

/-- Modelled from the spec: the class `TaggerResult` lives in
backend/src/domain/tagger/result.py, which is not among the sources
(only its importers are).  Per the spec it is a mapping from category
name to an ordered sequence of (tag, score) pairs; scores are abstracted
to integers since no claim depends on their values. -/
structure TaggerResult where
  tags : List (String × List (String × Int))
deriving DecidableEq

/-- Modelled from the spec: `TaggerResult.is_empty` — "Empty means every
category list is empty" / "zero tags across all categories". -/
def TaggerResult.is_empty (r : TaggerResult) : Bool :=
  r.tags.all (fun c => c.2.isEmpty)

/-- A successfully tagged image
(backend/src/domain/services/tagging_result_classifier.py lines 7-12). -/
structure TaggedImageEntry where
  image_entry : ImageEntry
  tagger_result : TaggerResult
deriving DecidableEq

/-- The classification outcome
(backend/src/domain/services/tagging_result_classifier.py lines 15-40). -/
structure TaggingOutcome where
  success : List TaggedImageEntry
  failure : List ImageEntry
  empty : List ImageEntry
deriving DecidableEq

/-- `TaggingOutcome.has_any_success`: `len(self.success) > 0`. -/
def TaggingOutcome.has_any_success (o : TaggingOutcome) : Bool :=
  decide (o.success.length > 0)

/-- `TaggingOutcome.total_count`: sum of the three bucket sizes. -/
def TaggingOutcome.total_count (o : TaggingOutcome) : Nat :=
  o.success.length + o.failure.length + o.empty.length

/-- Python `zip(xs, ys, strict=True)`: the pairs when the lengths agree,
a `ValueError` (here `none`) otherwise. -/
def zipStrict {α β : Type} : List α → List β → Option (List (α × β))
  | [], [] => some []
  | x :: xs, y :: ys => (zipStrict xs ys).map (fun r => (x, y) :: r)
  | _, _ => none

/-- The classification loop body
(tagging_result_classifier.py lines 60-66): a null result sends the
entry to `failure`, an empty result to `empty`, anything else pairs the
entry with its result in `success`; each bucket keeps input order. -/
def classifyPairs : List (ImageEntry × Option TaggerResult) → TaggingOutcome
  | [] => ⟨[], [], []⟩
  | (entry, result) :: rest =>
    let o := classifyPairs rest
    match result with
    | none => ⟨o.success, entry :: o.failure, o.empty⟩
    | some r =>
      if r.is_empty then ⟨o.success, o.failure, entry :: o.empty⟩
      else ⟨⟨entry, r⟩ :: o.success, o.failure, o.empty⟩

/-- `TaggingResultClassifier.classify`
(tagging_result_classifier.py lines 46-69): strict zip of the two input
lists, then the loop above. -/
def classify (image_entries : List ImageEntry)
    (tagger_results : List (Option TaggerResult)) : Except String TaggingOutcome :=
  match zipStrict image_entries tagger_results with
  | none => Except.error "zip() argument lengths differ"
  | some pairs => Except.ok (classifyPairs pairs)

theorem zipStrict_eq_zip {α β : Type} (xs : List α) (ys : List β)
    (h : xs.length = ys.length) : zipStrict xs ys = some (xs.zip ys) := by
  induction xs generalizing ys with
  | nil =>
    cases ys with
    | nil => rfl
    | cons y ys => simp at h
  | cons x xs ih =>
    cases ys with
    | nil => simp at h
    | cons y ys =>
      simp only [List.length_cons, Nat.succ_inj] at h
      simp [zipStrict, ih ys h, List.zip_cons_cons]

theorem classifyPairs_buckets (z : List (ImageEntry × Option TaggerResult)) :
    (classifyPairs z).failure
        = z.filterMap (fun p => match p.2 with | none => some p.1 | some _ => none) ∧
    (classifyPairs z).empty
        = z.filterMap (fun p => match p.2 with
            | some r => if r.is_empty then some p.1 else none
            | none => none) ∧
    (classifyPairs z).success
        = z.filterMap (fun p => match p.2 with
            | some r => if r.is_empty then none else some ⟨p.1, r⟩
            | none => none) := by
  induction z with
  | nil => exact ⟨rfl, rfl, rfl⟩
  | cons p rest ih =>
    obtain ⟨ihf, ihe, ihs⟩ := ih
    obtain ⟨entry, result⟩ := p
    cases result with
    | none => simp [classifyPairs, List.filterMap_cons, ihf, ihe, ihs]
    | some r =>
      by_cases hr : r.is_empty
      · simp [classifyPairs, List.filterMap_cons, hr, ihf, ihe, ihs]
      · simp [classifyPairs, List.filterMap_cons, hr, ihf, ihe, ihs]

theorem classifyPairs_counts (z : List (ImageEntry × Option TaggerResult)) :
    (classifyPairs z).success.length + (classifyPairs z).failure.length
        + (classifyPairs z).empty.length = z.length := by
  induction z with
  | nil => rfl
  | cons p rest ih =>
    obtain ⟨entry, result⟩ := p
    cases result with
    | none => simp only [classifyPairs, List.length_cons]; omega
    | some r =>
      by_cases hr : r.is_empty
      · simp only [classifyPairs, hr, if_true, List.length_cons]
        omega
      · simp only [classifyPairs, hr, Bool.false_eq_true, if_false, List.length_cons]
        omega

theorem classifyPairs_perm (z : List (ImageEntry × Option TaggerResult)) :
    ((classifyPairs z).success.map (fun t => t.image_entry)
        ++ (classifyPairs z).failure ++ (classifyPairs z).empty).Perm
      (z.map Prod.fst) := by
  induction z with
  | nil => simp [classifyPairs]
  | cons p rest ih =>
    obtain ⟨entry, result⟩ := p
    cases result with
    | none =>
      simp only [classifyPairs, List.map_cons]
      rw [List.append_assoc, List.cons_append]
      refine List.Perm.trans List.perm_middle (List.Perm.cons entry ?_)
      rw [← List.append_assoc]
      exact ih
    | some r =>
      by_cases hr : r.is_empty
      · simp only [classifyPairs, hr, if_true, List.map_cons]
        exact List.Perm.trans List.perm_middle (List.Perm.cons entry ih)
      · simp only [classifyPairs, hr, Bool.false_eq_true, if_false, List.map_cons,
          List.cons_append]
        exact List.Perm.cons entry ih

/-- C3: for equal-length inputs `classify` succeeds and partitions by the
per-index rule — a null result sends the entry to `failure`, a result
with zero tags across all categories to `empty`, and otherwise the
(entry, result) pair to `success` — so the bucket sizes sum to the input
length and the input entries are exactly the multiset union of the three
buckets (each input entry lands in exactly one bucket). -/
theorem classify_partitions (image_entries : List ImageEntry)
    (tagger_results : List (Option TaggerResult))
    (h : image_entries.length = tagger_results.length) :
    ∃ o, classify image_entries tagger_results = Except.ok o ∧
      o.failure = (image_entries.zip tagger_results).filterMap
          (fun p => match p.2 with | none => some p.1 | some _ => none) ∧
      o.empty = (image_entries.zip tagger_results).filterMap
          (fun p => match p.2 with
            | some r => if r.is_empty then some p.1 else none
            | none => none) ∧
      o.success = (image_entries.zip tagger_results).filterMap
          (fun p => match p.2 with
            | some r => if r.is_empty then none else some ⟨p.1, r⟩
            | none => none) ∧
      o.success.length + o.failure.length + o.empty.length = image_entries.length ∧
      (o.success.map (fun t => t.image_entry) ++ o.failure ++ o.empty).Perm image_entries := by
  refine ⟨classifyPairs (image_entries.zip tagger_results), ?_, ?_, ?_, ?_, ?_, ?_⟩
  · unfold classify
    rw [zipStrict_eq_zip _ _ h]
  · exact (classifyPairs_buckets _).1
  · exact (classifyPairs_buckets _).2.1
  · exact (classifyPairs_buckets _).2.2
  · rw [classifyPairs_counts, List.length_zip, h, Nat.min_self]
  · have hp := classifyPairs_perm (image_entries.zip tagger_results)
    rwa [List.map_fst_zip _ _ (Nat.le_of_eq h)] at hp

theorem classify_partitions_witness :
    ∃ o, classify
        [⟨none, "a.jpg", 1, 1, "jpg", "aa", 1, none, none⟩,
         ⟨none, "b.jpg", 1, 1, "jpg", "bb", 1, none, none⟩,
         ⟨none, "c.jpg", 1, 1, "jpg", "cc", 1, none, none⟩]
        [none, some ⟨[("general", [])]⟩, some ⟨[("general", [("cat", 9)])]⟩]
      = Except.ok o ∧
      o.success.length + o.failure.length + o.empty.length = 3 := by
  obtain ⟨o, h1, _, _, _, h5, _⟩ := classify_partitions
    [⟨none, "a.jpg", 1, 1, "jpg", "aa", 1, none, none⟩,
     ⟨none, "b.jpg", 1, 1, "jpg", "bb", 1, none, none⟩,
     ⟨none, "c.jpg", 1, 1, "jpg", "cc", 1, none, none⟩]
    [none, some ⟨[("general", [])]⟩, some ⟨[("general", [("cat", 9)])]⟩]
    (by decide)
  exact ⟨o, h1, by simpa using h5⟩

/-- A transaction-boundary call observed on a repository. -/
inductive RepoAction : Type
  | insert
  | commit
  | rollback
deriving DecidableEq

/-- `UnitOfWork` (src/infrastructure/repositories/unit_of_work.py):
an insertion-ordered dict of named repositories; `ρ` identifies the
repository object held under a name. -/
structure UnitOfWork (ρ : Type) where
  repositories : List (String × ρ)

/-- `UnitOfWork._commit` (lines 45-47): call `commit` on every managed
repository, in dict order; the trace records each call. -/
def uowCommitCalls {ρ : Type} (u : UnitOfWork ρ) : List (ρ × RepoAction) :=
  u.repositories.map (fun p => (p.2, RepoAction.commit))

/-- `UnitOfWork._rollback` (lines 49-51): call `rollback` on every
managed repository, in dict order. -/
def uowRollbackCalls {ρ : Type} (u : UnitOfWork ρ) : List (ρ × RepoAction) :=
  u.repositories.map (fun p => (p.2, RepoAction.rollback))

/-- `UnitOfWork.__exit__` (lines 56-59): commit all when no exception
occurred in the scope body, roll back all otherwise. -/
def uowExit {ρ : Type} (u : UnitOfWork ρ) (exc_occurred : Bool) : List (ρ × RepoAction) :=
  if exc_occurred then uowRollbackCalls u else uowCommitCalls u

/-- The `with unit_of_work:` statement: run the body, then `__exit__`
with the body's exception state; since `__exit__` returns `None`, a body
exception always propagates after the rollback. -/
def uowScope {ρ ε α : Type} (u : UnitOfWork ρ) (body : Except ε α) :
    Except ε α × List (ρ × RepoAction) :=
  match body with
  | Except.ok a => (Except.ok a, uowExit u false)
  | Except.error e => (Except.error e, uowExit u true)

/-- C4: for every unit of work and scope body, scope exit performs
exactly one transaction call per managed repository slot, in dict order:
`commit` on each when the body raised nothing, `rollback` on each when it
raised, and the body's outcome (value or exception) propagates
unchanged. -/
theorem uowScope_one_call_per_repository {ρ ε α : Type} (u : UnitOfWork ρ)
    (body : Except ε α) :
    (uowScope u body).2
        = u.repositories.map (fun p =>
            (p.2, match body with
                  | Except.ok _ => RepoAction.commit
                  | Except.error _ => RepoAction.rollback)) ∧
    (uowScope u body).2.length = u.repositories.length ∧
    (∀ pa, pa ∈ (uowScope u body).2 →
        (pa.2 = RepoAction.commit ↔ ∃ a, body = Except.ok a)) ∧
    (uowScope u body).1 = body := by
  cases body with
  | ok a =>
    refine ⟨rfl, by simp [uowScope, uowExit, uowCommitCalls], ?_, rfl⟩
    intro pa hpa
    simp only [uowScope, uowExit, if_false, Bool.false_eq_true, uowCommitCalls,
      List.mem_map] at hpa
    obtain ⟨p, _, hp⟩ := hpa
    constructor
    · intro _
      exact ⟨a, rfl⟩
    · intro _
      rw [← hp]
  | error e =>
    refine ⟨rfl, by simp [uowScope, uowExit, uowRollbackCalls], ?_, rfl⟩
    intro pa hpa
    simp only [uowScope, uowExit, if_true, uowRollbackCalls, List.mem_map] at hpa
    obtain ⟨p, _, hp⟩ := hpa
    constructor
    · intro hc
      rw [← hp] at hc
      exact absurd hc (by simp)
    · intro ⟨a, ha⟩
      exact absurd ha (by simp)

theorem uowScope_one_call_per_repository_witness :
    (uowScope (⟨[("images", 0), ("model_tag", 1)]⟩ : UnitOfWork Nat)
        (Except.error "boom" : Except String Unit)).2
      = [(0, RepoAction.rollback), (1, RepoAction.rollback)] :=
  ((uowScope_one_call_per_repository (⟨[("images", 0), ("model_tag", 1)]⟩ : UnitOfWork Nat)
      (Except.error "boom" : Except String Unit)).1).trans rfl

/-- One tag fact (src/domain/entities/model_tag.py lines 6-14). -/
structure ModelTagEntry where
  image_id : Nat
  category : String
  tag : String
  score : Int
  archived : Bool
deriving DecidableEq

/-- `TaggerResult.to_dict_list` (src/application/inference/tag_types.py
lines 73-92): flatten the category dict into (category, tag, score)
rows, category by category. -/
def TaggerResult.to_dict_list (r : TaggerResult) : List (String × String × Int) :=
  r.tags.flatMap (fun c => c.2.map (fun p => (c.1, p.1, p.2)))

/-- `ModelTagEntries.from_tagger_result` (src/domain/entities/model_tag.py
lines 22-38): one `ModelTagEntry` per row of `to_dict_list`, with the
assigned image id and `archived = False`. -/
def from_tagger_result (image_id : Nat) (tags : TaggerResult) : List ModelTagEntry :=
  tags.to_dict_list.map (fun r => ⟨image_id, r.1, r.2.1, r.2.2, false⟩)

/-- Errors the DuckDB-backed repositories raise on insert
(src/infrastructure/repositories/images/duckdb.py,
src/infrastructure/repositories/model_tag/duckdb.py). -/
inductive DbError : Type
  | duplicate_image
  | image_not_found
  | infrastructure (msg : String)
deriving DecidableEq

/-- A repository connection with an open transaction
(src/infrastructure/repositories/base/duckdb_base.py): rows inserted in
the current transaction are `pending` until `commit` makes them durable;
`rollback` discards them. -/
structure RepoState (X : Type) where
  committed : List X
  pending : List X
deriving DecidableEq

/-- A successful SQL insert appends rows to the open transaction. -/
def repo_insert {X : Type} (s : RepoState X) (rows : List X) : RepoState X :=
  ⟨s.committed, s.pending ++ rows⟩

/-- `commit()`: make the pending rows durable. -/
def repo_commit {X : Type} (s : RepoState X) : RepoState X :=
  ⟨s.committed ++ s.pending, []⟩

/-- `rollback()`: discard the pending rows. -/
def repo_rollback {X : Type} (s : RepoState X) : RepoState X :=
  ⟨s.committed, []⟩

/-- The two tables touched by the registration persistence scope. -/
structure PersistState where
  images : RepoState ImageEntry
  model_tag : RepoState ModelTagEntry
deriving DecidableEq

/-- The unit of work restricted to `REQUIRED_REPOSITORIES =
["images", "model_tag"]` (register_new_image.py line 59 and the
`subset` call in `__init__`). -/
def register_uow : UnitOfWork String :=
  ⟨[("images", "images"), ("model_tag", "model_tag")]⟩

/-- Body of the `with self.unit_of_work:` block
(register_new_image.py lines 152-165): insert the successful entries
into `images` receiving their ids, zip ids with results (strict), build
`ModelTagEntries` per image and insert them into `model_tag`.  The SQL
outcomes are the injected `db_images` / `db_model_tag` behaviours; a
failed statement leaves its table's transaction unchanged. -/
def persist_body (db_images : List ImageEntry → Except DbError (List Nat))
    (db_model_tag : List (List ModelTagEntry) → Except DbError Unit)
    (st : PersistState) (success : List TaggedImageEntry) :
    PersistState × List (String × RepoAction) × Except (PyErr DbError) Unit :=
  match db_images (success.map (fun r => r.image_entry)) with
  | Except.error e => (st, [], Except.error (PyErr.raised e))
  | Except.ok image_ids =>
    let st1 : PersistState :=
      ⟨repo_insert st.images (success.map (fun r => r.image_entry)), st.model_tag⟩
    match zipStrict image_ids success with
    | none => (st1, [("images", RepoAction.insert)],
        Except.error (PyErr.valueError "zip() argument lengths differ"))
    | some zipped =>
      let model_tag_entries_list := zipped.map (fun p => from_tagger_result p.1 p.2.tagger_result)
      match db_model_tag model_tag_entries_list with
      | Except.error e => (st1, [("images", RepoAction.insert)], Except.error (PyErr.raised e))
      | Except.ok _ =>
        (⟨st1.images, repo_insert st.model_tag model_tag_entries_list.flatten⟩,
         [("images", RepoAction.insert), ("model_tag", RepoAction.insert)], Except.ok ())

/-- The whole persistence stage: the body above inside the
`with self.unit_of_work:` scope — on normal exit both repositories
commit, on an exception both roll back and the exception propagates
(register_new_image.py lines 152-165 together with
`UnitOfWork.__exit__`). -/
def persist_stage (db_images : List ImageEntry → Except DbError (List Nat))
    (db_model_tag : List (List ModelTagEntry) → Except DbError Unit)
    (st : PersistState) (success : List TaggedImageEntry) :
    PersistState × List (String × RepoAction) × Except (PyErr DbError) Unit :=
  let r := persist_body db_images db_model_tag st success
  match r.2.2 with
  | Except.ok _ =>
    (⟨repo_commit r.1.images, repo_commit r.1.model_tag⟩,
     r.2.1 ++ uowExit register_uow false, Except.ok ())
  | Except.error e =>
    (⟨repo_rollback r.1.images, repo_rollback r.1.model_tag⟩,
     r.2.1 ++ uowExit register_uow true, Except.error e)

/-- The tag rows built for the zipped (id, result) pairs. -/
def tag_rows_for (image_ids : List Nat) (success : List TaggedImageEntry) :
    List (List ModelTagEntry) :=
  (image_ids.zip success).map (fun p => from_tagger_result p.1 p.2.tagger_result)

/-- C2: if the `model_tag` insert raises inside the persistence scope
while the `images` insert succeeded, both repositories roll back, no
commit fires in the scope, the exception propagates out of `handle`, and
neither table keeps any row from this call: the committed rows are
exactly what they were before and both transactions end empty. -/
theorem persist_model_tag_failure_rolls_back_both
    (db_images : List ImageEntry → Except DbError (List Nat))
    (db_model_tag : List (List ModelTagEntry) → Except DbError Unit)
    (st : PersistState) (success : List TaggedImageEntry)
    (image_ids : List Nat) (e : DbError)
    (h1 : db_images (success.map (fun r => r.image_entry)) = Except.ok image_ids)
    (h2 : image_ids.length = success.length)
    (h3 : db_model_tag (tag_rows_for image_ids success) = Except.error e) :
    (persist_stage db_images db_model_tag st success).1.images.committed
        = st.images.committed ∧
    (persist_stage db_images db_model_tag st success).1.model_tag.committed
        = st.model_tag.committed ∧
    (persist_stage db_images db_model_tag st success).1.images.pending = [] ∧
    (persist_stage db_images db_model_tag st success).1.model_tag.pending = [] ∧
    (persist_stage db_images db_model_tag st success).2.1
        = [("images", RepoAction.insert),
           ("images", RepoAction.rollback), ("model_tag", RepoAction.rollback)] ∧
    (∀ n, ¬ (n, RepoAction.commit) ∈ (persist_stage db_images db_model_tag st success).2.1) ∧
    (persist_stage db_images db_model_tag st success).2.2
        = Except.error (PyErr.raised e) := by
  have hzip : zipStrict image_ids success = some (image_ids.zip success) :=
    zipStrict_eq_zip image_ids success h2
  have hbody : persist_body db_images db_model_tag st success
      = (⟨repo_insert st.images (success.map (fun r => r.image_entry)), st.model_tag⟩,
         [("images", RepoAction.insert)], Except.error (PyErr.raised e)) := by
    unfold persist_body
    rw [h1]
    simp only [hzip]
    rw [show (image_ids.zip success).map (fun p => from_tagger_result p.1 p.2.tagger_result)
          = tag_rows_for image_ids success from rfl, h3]
  unfold persist_stage
  rw [hbody]
  refine ⟨rfl, rfl, rfl, rfl, rfl, ?_, rfl⟩
  intro n hn
  simp only [uowExit, if_true, uowRollbackCalls, register_uow, List.map_cons, List.map_nil,
    List.cons_append, List.nil_append, List.mem_cons, List.not_mem_nil] at hn
  rcases hn with h | h | h | h
  · exact absurd (congrArg Prod.snd h) (by simp)
  · exact absurd (congrArg Prod.snd h) (by simp)
  · exact absurd (congrArg Prod.snd h) (by simp)
  · exact h

theorem persist_model_tag_failure_rolls_back_both_witness :
    (persist_stage (fun rows => Except.ok (List.range rows.length))
        (fun _ => Except.error DbError.image_not_found)
        ⟨⟨[⟨some 1, "old.jpg", 1, 1, "jpg", "00", 1, none, none⟩], []⟩, ⟨[], []⟩⟩
        [⟨⟨none, "a.jpg", 1, 1, "jpg", "aa", 1, none, none⟩,
          ⟨[("general", [("cat", 9)])]⟩⟩]).1.images.committed
      = [⟨some 1, "old.jpg", 1, 1, "jpg", "00", 1, none, none⟩] ∧
    (persist_stage (fun rows => Except.ok (List.range rows.length))
        (fun _ => Except.error DbError.image_not_found)
        ⟨⟨[⟨some 1, "old.jpg", 1, 1, "jpg", "00", 1, none, none⟩], []⟩, ⟨[], []⟩⟩
        [⟨⟨none, "a.jpg", 1, 1, "jpg", "aa", 1, none, none⟩,
          ⟨[("general", [("cat", 9)])]⟩⟩]).2.2
      = Except.error (PyErr.raised DbError.image_not_found) := by
  have h := persist_model_tag_failure_rolls_back_both
    (fun rows => Except.ok (List.range rows.length))
    (fun _ => Except.error DbError.image_not_found)
    ⟨⟨[⟨some 1, "old.jpg", 1, 1, "jpg", "00", 1, none, none⟩], []⟩, ⟨[], []⟩⟩
    [⟨⟨none, "a.jpg", 1, 1, "jpg", "aa", 1, none, none⟩,
      ⟨[("general", [("cat", 9)])]⟩⟩]
    [0] DbError.image_not_found rfl rfl rfl
  exact ⟨h.1, h.2.2.2.2.2.2⟩

/-- Collaborators of `RegisterNewImageUsecase.handle`
(backend/src/application/usecases/register_new_image.py):
`extract_metadata` is `_extract_metadata` (read the binary, build the
entry — it may raise, and may yield a `None` entry); `find_by_hashes`
the `images` repository read used by deduplication; `tag` the tagger
call on one binary; `db_images` / `db_model_tag` the SQL insert
behaviours of the two repositories. -/
structure HandleDeps where
  extract_metadata : String → Except String (Option ImageEntry × String)
  find_by_hashes : List String → List ImageEntry
  tag : String → Except String TaggerResult
  db_images : List ImageEntry → Except DbError (List Nat)
  db_model_tag : List (List ModelTagEntry) → Except DbError Unit

/-- Observable outcome of one `handle` call: final table states, the
insert/commit/rollback calls performed on the repositories, the log
lines, and the returned-or-raised result. -/
structure HandleResult where
  state : PersistState
  events : List (String × RepoAction)
  logs : List String
  outcome : Except (PyErr DbError) Unit

/-- Steps 1-2 of `handle` (register_new_image.py lines 104-113):
parallel metadata extraction with `raise_on_error=False` (results in
input order, as proved for the executor), drop the raised ones, drop the
pairs whose entry is `None`. -/
def extract_stage (d : HandleDeps) (image_files : List String) :
    List (ImageEntry × String) :=
  ((image_files.map d.extract_metadata).filterMap (fun r =>
      match r with
      | Except.ok p => some p
      | Except.error _ => none)).filterMap (fun p =>
      match p.1 with
      | some entry => some (entry, p.2)
      | none => none)

/-- Step 3 of `handle` (lines 121-124): duplicate check against the
`images` repository. -/
def dedup_stage (d : HandleDeps) (entries : List ImageEntry) : List ImageEntry :=
  filter_duplicates_repo entries d.find_by_hashes

/-- Step 4 of `handle` (line 131): keep the pairs whose entry hash
survived the duplicate check. -/
def surviving_pairs (d : HandleDeps) (image_files : List String) :
    List (ImageEntry × String) :=
  let pairs := extract_stage d image_files
  let non_dup := dedup_stage d (pairs.map (fun p => p.1))
  let allowed := non_dup.map (fun e => e.hash)
  pairs.filter (fun p => allowed.contains p.1.hash)

/-- Steps 5-6 of `handle` (lines 134-145): parallel tagging with
`raise_on_error=False`, then exceptions become `None` results. -/
def tag_stage (d : HandleDeps) (pairs : List (ImageEntry × String)) :
    List (Option TaggerResult) :=
  pairs.map (fun p =>
    match d.tag p.2 with
    | Except.ok r => some r
    | Except.error _ => none)

/-- The classification reached in step 6 of `handle`, as a function of
the call inputs. -/
def classify_stage (d : HandleDeps) (image_files : List String) :
    Except String TaggingOutcome :=
  classify ((surviving_pairs d image_files).map (fun p => p.1))
    (tag_stage d (surviving_pairs d image_files))

/-- `RegisterNewImageUsecase.handle`
(register_new_image.py lines 89-165): guards log and return early;
otherwise the persistence stage runs inside the unit-of-work scope. -/
def handle (d : HandleDeps) (st : PersistState) (image_files : List String) :
    HandleResult :=
  if image_files.isEmpty then ⟨st, [], ["no input files"], Except.ok ()⟩
  else
    let pairs := extract_stage d image_files
    if (pairs.map (fun p => p.1)).isEmpty then
      ⟨st, [], ["no valid image entries"], Except.ok ()⟩
    else
      let non_dup := dedup_stage d (pairs.map (fun p => p.1))
      if non_dup.isEmpty then
        ⟨st, [], ["no image entries after duplicate check"], Except.ok ()⟩
      else
        let pairs2 := surviving_pairs d image_files
        match classify (pairs2.map (fun p => p.1)) (tag_stage d pairs2) with
        | Except.error msg => ⟨st, [], [], Except.error (PyErr.valueError msg)⟩
        | Except.ok outcome =>
          if !outcome.has_any_success then
            ⟨st, [], ["no valid tagged images after filtering"], Except.ok ()⟩
          else
            let pr := persist_stage d.db_images d.db_model_tag st outcome.success
            ⟨pr.1, pr.2.1, ["tagging result counts", "total registered"], pr.2.2⟩

theorem classify_ok_of_length_eq (entries : List ImageEntry)
    (results : List (Option TaggerResult)) (h : entries.length = results.length) :
    classify entries results = Except.ok (classifyPairs (entries.zip results)) := by
  unfold classify
  rw [zipStrict_eq_zip _ _ h]

/-- C6: whenever a guard of `handle` fires — empty input file list, or a
classification with no success at all — the call returns normally
without entering the persistence stage: the repository states are
untouched and no insert, commit or rollback is performed. -/
theorem handle_guard_skips_persistence (d : HandleDeps) (st : PersistState)
    (image_files : List String)
    (h : image_files = [] ∨
        (∀ o, classify_stage d image_files = Except.ok o → o.success = [])) :
    (handle d st image_files).state = st ∧
    (handle d st image_files).events = [] ∧
    (handle d st image_files).outcome = Except.ok () := by
  unfold handle
  by_cases h1 : image_files.isEmpty
  · rw [if_pos h1]
    exact ⟨rfl, rfl, rfl⟩
  · rw [if_neg h1]
    rcases h with h | h
    · exact absurd (h ▸ rfl) h1
    · by_cases h2 : ((extract_stage d image_files).map (fun p => p.1)).isEmpty
      · rw [if_pos h2]
        exact ⟨rfl, rfl, rfl⟩
      · rw [if_neg h2]
        by_cases h3 : (dedup_stage d ((extract_stage d image_files).map (fun p => p.1))).isEmpty
        · rw [if_pos h3]
          exact ⟨rfl, rfl, rfl⟩
        · rw [if_neg h3]
          have hlen : ((surviving_pairs d image_files).map (fun p => p.1)).length
              = (tag_stage d (surviving_pairs d image_files)).length := by
            simp [tag_stage]
          have ho := classify_ok_of_length_eq _ _ hlen
          simp only [ho]
          have hsucc : (classifyPairs
              (((surviving_pairs d image_files).map (fun p => p.1)).zip
                (tag_stage d (surviving_pairs d image_files)))).success = [] :=
            h _ (by unfold classify_stage; exact ho)
          have hb : (classifyPairs
              (((surviving_pairs d image_files).map (fun p => p.1)).zip
                (tag_stage d (surviving_pairs d image_files)))).has_any_success = false := by
            simp [TaggingOutcome.has_any_success, hsucc]
          rw [hb]
          exact ⟨rfl, rfl, rfl⟩

theorem handle_guard_skips_persistence_witness :
    (handle
        ⟨fun _ => Except.error "unreadable", fun _ => [],
         fun _ => Except.error "tagging failed",
         fun _ => Except.ok [], fun _ => Except.ok ()⟩
        ⟨⟨[], []⟩, ⟨[], []⟩⟩ []).events = [] ∧
    (handle
        ⟨fun _ => Except.error "unreadable", fun _ => [],
         fun _ => Except.error "tagging failed",
         fun _ => Except.ok [], fun _ => Except.ok ()⟩
        ⟨⟨[], []⟩, ⟨[], []⟩⟩ []).state = ⟨⟨[], []⟩, ⟨[], []⟩⟩ := by
  have h := handle_guard_skips_persistence
    ⟨fun _ => Except.error "unreadable", fun _ => [],
     fun _ => Except.error "tagging failed",
     fun _ => Except.ok [], fun _ => Except.ok ()⟩
    ⟨⟨[], []⟩, ⟨[], []⟩⟩ [] (Or.inl rfl)
  exact ⟨h.2.1, h.1⟩

/-- ASCII whitespace stripped by Python `str.strip()` and `int()`. -/
def isPySpace (c : Char) : Bool :=
  c = ' ' || c = '\t' || c = '\n' || c = '\r' || c = '\x0b' || c = '\x0c'

/-- Strip leading and trailing whitespace from a character list. -/
def pyStripList (cs : List Char) : List Char :=
  ((cs.dropWhile isPySpace).reverse.dropWhile isPySpace).reverse

/-- A hexadecimal digit, either case, as accepted by `int(s, 16)`. -/
def isHexDigitChar (c : Char) : Bool :=
  c.isDigit || ('a' ≤ c && c ≤ 'f') || ('A' ≤ c && c ≤ 'F')

/-- A lowercase hexadecimal digit — the SHA-256 `hexdigest` alphabet the
spec prescribes for `hash`. -/
def isLowerHexChar (c : Char) : Bool :=
  c.isDigit || ('a' ≤ c && c ≤ 'f')

/-- Digits continuing a hex literal in `int(s, 16)`: single underscores
may separate digits, never lead, trail or repeat. -/
def hexTail : List Char → Bool
  | [] => true
  | [c] => if c = '_' then false else isHexDigitChar c
  | c :: d :: rest =>
    if c = '_' then isHexDigitChar d && hexTail rest
    else isHexDigitChar c && hexTail (d :: rest)

/-- Digit part of a hex literal: at least one digit; an underscore may
open it only right after a `0x` base marker. -/
def hexBody (after_base_marker : Bool) : List Char → Bool
  | [] => false
  | c :: rest =>
    if c = '_' then
      after_base_marker &&
        (match rest with
         | [] => false
         | d :: rest2 => isHexDigitChar d && hexTail rest2)
    else isHexDigitChar c && hexTail rest

/-- Optional leading sign of `int(s, 16)`. -/
def dropSign : List Char → List Char
  | [] => []
  | c :: rest => if c = '+' || c = '-' then rest else c :: rest

/-- Digits with an optional `0x` / `0X` base marker. -/
def hexDigitsPart : List Char → Bool
  | c0 :: c1 :: rest =>
    if c0 = '0' && (c1 = 'x' || c1 = 'X') then hexBody true rest
    else hexBody false (c0 :: c1 :: rest)
  | cs => hexBody false cs

/-- Whether Python `int(s, 16)` parses `s`: surrounding whitespace, an
optional sign, an optional `0x` marker, then underscore-separated hex
digits of either case. -/
def pyIntBase16Accepts (cs : List Char) : Bool :=
  hexDigitsPart (dropSign (pyStripList cs))

/-- `ImageHash.__post_init__`
(src/domain/value_objects/image_hash.py lines 18-27): reject the empty
string, reject any length other than 64, then require `int(value, 16)`
to parse; the characters are Python string characters, so the checks are
on the character list. -/
def imageHashValid (value : String) : Bool :=
  !value.data.isEmpty && (value.data.length == 64) && pyIntBase16Accepts value.data

/-- C9 counterexample: a 64-character string of uppercase `A`s is not a
lowercase hexadecimal string, yet `ImageHash` construction accepts it,
because `int(value, 16)` is case-insensitive. -/
theorem imageHashValid_accepts_uppercase :
    imageHashValid (String.mk (List.replicate 64 'A')) = true ∧
    ((String.mk (List.replicate 64 'A')).data.all isLowerHexChar) = false := by
  constructor
  · decide
  · decide

theorem hex_not_space (c : Char) (h : isHexDigitChar c = true) : isPySpace c = false := by
  by_contra hs
  rw [Bool.not_eq_false] at hs
  have hsp : c = ' ' ∨ c = '\t' ∨ c = '\n' ∨ c = '\r' ∨ c = '\x0b' ∨ c = '\x0c' := by
    simpa [isPySpace, or_assoc] using hs
  rcases hsp with h1 | h1 | h1 | h1 | h1 | h1 <;>
    (subst h1; exact absurd h (by decide))

theorem dropWhile_eq_self_of_none {α : Type} (p : α → Bool) (l : List α)
    (h : ∀ c ∈ l, p c = false) : l.dropWhile p = l := by
  cases l with
  | nil => rfl
  | cons a rest =>
    rw [List.dropWhile_cons, h a (List.mem_cons_self a rest)]
    simp

theorem pyStripList_eq_self (cs : List Char) (h : ∀ c ∈ cs, isPySpace c = false) :
    pyStripList cs = cs := by
  unfold pyStripList
  rw [dropWhile_eq_self_of_none _ _ h]
  rw [dropWhile_eq_self_of_none _ _ (fun c hc => h c (List.mem_reverse.1 hc))]
  exact List.reverse_reverse cs

theorem hexTail_of_all : ∀ cs : List Char, (∀ c ∈ cs, isHexDigitChar c = true) →
    hexTail cs = true
  | [], _ => rfl
  | [c], h => by
    have hc := h c (List.mem_cons_self c [])
    have hne : c ≠ '_' := by
      intro hu
      subst hu
      exact absurd hc (by decide)
    rw [hexTail, if_neg hne, hc]
  | c :: d :: rest, h => by
    have hc := h c (List.mem_cons_self c (d :: rest))
    have hne : c ≠ '_' := by
      intro hu
      subst hu
      exact absurd hc (by decide)
    rw [hexTail, if_neg hne, hc]
    simp only [Bool.true_and]
    exact hexTail_of_all (d :: rest) (fun x hx => h x (List.mem_cons_of_mem c hx))

theorem hexDigitsPart_of_all (cs : List Char) (hne : cs ≠ [])
    (h : ∀ c ∈ cs, isHexDigitChar c = true) : hexDigitsPart cs = true := by
  have hbody : hexBody false cs = true := by
    cases cs with
    | nil => exact absurd rfl hne
    | cons c rest =>
      have hc := h c (List.mem_cons_self c rest)
      have hu : c ≠ '_' := by
        intro hu
        subst hu
        exact absurd hc (by decide)
      simp only [hexBody]
      rw [if_neg hu, hc]
      simp only [Bool.true_and]
      exact hexTail_of_all rest (fun x hx => h x (List.mem_cons_of_mem c hx))
  cases cs with
  | nil => exact absurd rfl hne
  | cons c0 rest0 =>
    cases rest0 with
    | nil => exact hbody
    | cons c1 rest =>
      have hc1 := h c1 (List.mem_cons_of_mem c0 (List.mem_cons_self c1 rest))
      have hmark : (c0 = '0' && (c1 = 'x' || c1 = 'X')) = false := by
        have hx : c1 ≠ 'x' := by
          intro hu
          subst hu
          exact absurd hc1 (by decide)
        have hX : c1 ≠ 'X' := by
          intro hu
          subst hu
          exact absurd hc1 (by decide)
        simp [hx, hX]
      simp only [hexDigitsPart]
      rw [hmark]
      simpa using hbody

theorem dropSign_eq_self_of_hex (cs : List Char)
    (h : ∀ c ∈ cs, isHexDigitChar c = true) : dropSign cs = cs := by
  cases cs with
  | nil => rfl
  | cons c rest =>
    have hc := h c (List.mem_cons_self c rest)
    have hsgn : (c = '+' || c = '-') = false := by
      have h1 : c ≠ '+' := by
        intro hu
        subst hu
        exact absurd hc (by decide)
      have h2 : c ≠ '-' := by
        intro hu
        subst hu
        exact absurd hc (by decide)
      simp [h1, h2]
    simp only [dropSign]
    rw [hsgn]
    simp

/-- C9 amended: `ImageHash` construction accepts a string only if it has
exactly 64 characters, and on strings consisting solely of hexadecimal
digits it succeeds exactly when the length is 64 — but case is not
enforced (and the underlying `int(value, 16)` parse also tolerates
sign/base-marker/underscore/whitespace forms), so acceptance is strictly
wider than the spec's lowercase-hex SHA-256 shape. -/
theorem imageHashValid_length_and_hex (s : String) :
    (imageHashValid s = true → s.data.length = 64) ∧
    (s.data.all isHexDigitChar = true →
      (imageHashValid s = true ↔ s.data.length = 64)) := by
  constructor
  · intro hv
    simp only [imageHashValid, Bool.and_eq_true] at hv
    simpa using hv.1.2
  · intro hhex
    have hall : ∀ c ∈ s.data, isHexDigitChar c = true := List.all_eq_true.1 hhex
    constructor
    · intro hv
      simp only [imageHashValid, Bool.and_eq_true] at hv
      simpa using hv.1.2
    · intro hlen
      have hne : s.data ≠ [] := by
        intro hd
        rw [hd] at hlen
        exact absurd hlen (by decide)
      simp only [imageHashValid, Bool.and_eq_true]
      refine ⟨⟨?_, ?_⟩, ?_⟩
      · cases hd : s.data with
        | nil => exact absurd hd hne
        | cons c rest => rfl
      · simp [hlen]
      · unfold pyIntBase16Accepts
        rw [pyStripList_eq_self _ (fun c hc => hex_not_space c (hall c hc)),
          dropSign_eq_self_of_hex _ hall]
        exact hexDigitsPart_of_all _ hne hall

theorem imageHashValid_length_and_hex_witness :
    imageHashValid (String.mk (List.replicate 64 'a')) = true :=
  ((imageHashValid_length_and_hex (String.mk (List.replicate 64 'a'))).2
    (by decide)).mpr (by decide)

/-- An exception raised during extraction: PIL's
`UnidentifiedImageError`, or any other `Exception` (storage failure,
domain validation `ValueError`, ...), carried with its message. -/
inductive ExtractExc : Type
  | unidentified_image
  | generic (msg : String)
deriving DecidableEq

/-- Collaborators of `ImageMetadataExtractor.extract_from_file`
(backend/src/application/service/image_metadata_extractor.py):
storage reads, PIL `Image.open` (yielding width and height), and the
SHA-256 hex digest, each of which may raise. -/
structure ExtractDeps where
  read_binary : String → Except ExtractExc String
  image_open : String → Except ExtractExc (Nat × Nat)
  get_size : String → Except ExtractExc Nat
  get_file_extension : String → Except ExtractExc String
  sha256_hex : String → String

/-- `FileLocation.__post_init__`
(src/domain/value_objects/file_location.py): empty or whitespace-only
paths raise `ValueError`, which the extractor's catch-all absorbs. -/
def file_location_check (value : String) : Except ExtractExc Unit :=
  if value.data.isEmpty then
    Except.error (ExtractExc.generic "File location cannot be empty")
  else if (pyStripList value.data).isEmpty then
    Except.error (ExtractExc.generic "File location cannot be whitespace only")
  else Except.ok ()

/-- `ImageSize.__post_init__`
(src/domain/value_objects/image_size.py): non-positive width or height
raises `ValueError`; PIL dimensions are non-negative, so only zero can
occur here. -/
def image_size_check (width height : Nat) : Except ExtractExc Unit :=
  if width = 0 then Except.error (ExtractExc.generic "Width must be positive")
  else if height = 0 then Except.error (ExtractExc.generic "Height must be positive")
  else Except.ok ()

/-- Body of the `try:` block of `extract_from_file`
(image_metadata_extractor.py lines 40-57): `image_binary or
read_binary(...)` re-reads when the supplied binary is absent or empty
(falsy), then decode, read storage metadata, validate the value objects
and assemble the entry via `ImageMetadataFactory.create` and
`ImageEntry.from_metadata`. -/
def extract_attempt (d : ExtractDeps) (image_file : String)
    (image_binary : Option String) : Except ExtractExc ImageEntry := do
  let binary ← (match image_binary with
    | some b => if b.data.isEmpty then d.read_binary image_file else Except.ok b
    | none => d.read_binary image_file)
  let wh ← d.image_open binary
  let file_size ← d.get_size image_file
  let file_type ← d.get_file_extension image_file
  let _ ← file_location_check image_file
  let _ ← image_size_check wh.1 wh.2
  Except.ok
    { image_id := none, file_location := image_file, width := wh.1, height := wh.2,
      file_type := file_type, hash := d.sha256_hex binary, file_size := file_size,
      added_at := none, updated_at := none }

/-- `extract_from_file` (image_metadata_extractor.py lines 30-62): the
attempt above inside `try/except` — `UnidentifiedImageError` and every
other `Exception` give `None` plus one warning log line. -/
def extract_from_file (d : ExtractDeps) (image_file : String)
    (image_binary : Option String) : Option ImageEntry × List String :=
  match extract_attempt d image_file image_binary with
  | Except.ok entry => (some entry, [])
  | Except.error ExtractExc.unidentified_image =>
      (none, ["skipped: Unsupported file type: " ++ image_file])
  | Except.error (ExtractExc.generic msg) =>
      (none, ["skipped: Failed to load image: " ++ image_file ++ ": " ++ msg])

/-- C8: for every file identifier, optional binary and collaborator
behaviour, `extract_from_file` either returns an entry (no log) or
returns no entry with exactly one warning logged; no exception of the
extraction — undecodable format or any other failure — escapes to the
caller, so extraction failures cannot abort a batch. -/
theorem extract_from_file_never_raises (d : ExtractDeps) (image_file : String)
    (image_binary : Option String) :
    (∃ entry, extract_from_file d image_file image_binary = (some entry, [])) ∨
    ((extract_from_file d image_file image_binary).1 = none ∧
      (extract_from_file d image_file image_binary).2.length = 1) := by
  cases h : extract_attempt d image_file image_binary with
  | ok entry =>
    exact Or.inl ⟨entry, by simp [extract_from_file, h]⟩
  | error e =>
    cases e with
    | unidentified_image => exact Or.inr (by simp [extract_from_file, h])
    | generic msg => exact Or.inr (by simp [extract_from_file, h])
